import Mathlib

/-!
Verification development for the Cax genome-alignment pipeline driver.

This file gives a shallow embedding, in Lean, of the parts of the Cax
source that the verified properties are about:

* `src/cax/models.py`   — the `Step` / `Round` / `Plan` data model;
* `src/cax/planner.py`  — `build_execution_plan` and its helpers;
* `src/cax/resume.py`   — canonical previews, stable keys, `plan_signature`,
  `outputs_exist` with the blast PAF cross-check, and the skip computation;
* `src/cax/runner.py`   — `_RunState.compute_skips` and
  `PlanRunner._prepare_toil_jobstore`;
* `src/cax/tree_utils.py` — the Newick parser and round binding.

Modelling conventions, used throughout:

* Python strings are Lean `String`s, and all character processing is done
  structurally over `String.data : List Char` so that concrete instances
  reduce inside the kernel.
* Filesystem paths are plain strings.  A path is absolute iff it starts
  with a slash; `Path.expanduser` / `Path.resolve` normalisation beyond
  prepending the base directory is abstracted away (no claim depends on
  home-directory expansion or symlink resolution).
* The filesystem itself is a finite map from paths to file data: UTF-8
  text lines, a readable file whose bytes are not valid UTF-8 (carrying the
  lines a lenient `errors="replace"` decode would yield), an entry whose
  read raises `OSError`, or a directory.  A strict-decode read of a
  non-UTF-8 file raises `UnicodeDecodeError`, which is a `ValueError`, not
  an `OSError` and not a `json.JSONDecodeError`.  Reading a
  gzip-compressed file is modelled as reading its (decompressed) lines.
* SHA-1 is modelled as an injective encoding of the hashed byte stream —
  the stream itself.  The source only compares hash values for equality,
  which the injective model preserves.
* `shlex.split` / `shlex.join` are modelled as whitespace tokenisation and
  space-joining; every command the claims touch is quote-free, where the
  two coincide (the source itself falls back to `str.split` when shlex
  fails).
* Fallible Python code is embedded with `Except` / `Option`; in particular
  attribute access on a missing pydantic field is an `AttributeError`.
-/

namespace Cax

/-! ## Character and string utilities (kernel-reducible) -/

/-- Whitespace test matching the characters Python's `str.isspace` treats as
blank in the inputs handled here (ASCII whitespace; exotic Unicode blanks are
abstracted away). -/
def chIsWs (c : Char) : Bool :=
  c == ' ' || c == '\t' || c == '\r' || c == '\n' || c == '\x0b' || c == '\x0c'

/-- Drop leading whitespace from a character list. -/
def skipWs : List Char → List Char
  | [] => []
  | c :: cs => if chIsWs c then skipWs cs else c :: cs

/-- Python `str.strip()`. -/
def pyStrip (s : String) : String :=
  String.mk (((s.data.dropWhile chIsWs).reverse.dropWhile chIsWs).reverse)

/-- Python `s.startswith(pre)`. -/
def strStartsWith (s pre : String) : Bool :=
  pre.data.isPrefixOf s.data

/-- Python `s.endswith(suf)`. -/
def strEndsWith (s suf : String) : Bool :=
  suf.data.isSuffixOf s.data

/-- Drop the first `n` characters of a string. -/
def strDropLeft (s : String) (n : Nat) : String :=
  String.mk (s.data.drop n)

/-- Lowercase an ASCII letter (Python `str.lower` on the executable names
handled here). -/
def lcChar (c : Char) : Char :=
  if 'A' ≤ c ∧ c ≤ 'Z' then Char.ofNat (c.toNat + 32) else c

/-- Python `str.lower()`. -/
def lcStr (s : String) : String :=
  String.mk (s.data.map lcChar)

/-- Split on a single separator character, Python `str.split(sep)`:
empty fields are kept. -/
def splitCharAux (sep : Char) : List Char → List Char → List (List Char)
  | [], acc => [acc.reverse]
  | c :: cs, acc =>
    if c == sep then acc.reverse :: splitCharAux sep cs []
    else splitCharAux sep cs (c :: acc)

/-- Split a string on a separator character, keeping empty fields. -/
def splitOnCharStr (sep : Char) (s : String) : List String :=
  (splitCharAux sep s.data []).map String.mk

/-- Tokenise on runs of whitespace, Python `str.split()`:
empty fields are dropped. -/
def wsTokensAux : List Char → List Char → List (List Char)
  | [], acc => if acc.isEmpty then [] else [acc.reverse]
  | c :: cs, acc =>
    if chIsWs c then
      if acc.isEmpty then wsTokensAux cs [] else acc.reverse :: wsTokensAux cs []
    else wsTokensAux cs (c :: acc)

/-- Python `str.split()` (whitespace, empties dropped). -/
def splitWsStr (s : String) : List String :=
  (wsTokensAux s.data []).map String.mk

/-- Replace every occurrence of a pattern, scanning left to right without
overlap; the fuel argument (always instantiated with the input length plus
one) keeps the recursion structural. -/
def strFindRepFuel : Nat → List Char → List Char → List Char → List Char
  | 0, _, _, l => l
  | _ + 1, _, _, [] => []
  | fuel + 1, pat, rep, c :: cs =>
    if pat != [] && pat.isPrefixOf (c :: cs) then
      rep ++ strFindRepFuel fuel pat rep ((c :: cs).drop pat.length)
    else c :: strFindRepFuel fuel pat rep cs

/-- Python `s.replace(pat, rep)` (with a non-empty pattern). -/
def strReplace (s pat rep : String) : String :=
  String.mk (strFindRepFuel (s.data.length + 1) pat.data rep.data s.data)

/-- Join tokens with single spaces; models `shlex.join` on quote-free
tokens. -/
def joinTokens : List String → String
  | [] => ""
  | [t] => t
  | t :: ts => t ++ " " ++ joinTokens ts

/-- Last path component, Python `Path(s).name` for the slash-free or
slash-separated paths appearing in commands. -/
def baseName (s : String) : String :=
  (splitOnCharStr '/' s).getLastD s

/-- Directory part of a path: everything before the final slash
(empty when there is no slash). -/
def dirName (s : String) : String :=
  let parts := splitOnCharStr '/' s
  if parts.length ≤ 1 then "" else joinSlash parts.dropLast
where
  joinSlash : List String → String
    | [] => ""
    | [p] => p
    | p :: ps => p ++ "/" ++ joinSlash ps

/-- Python `Path(s).with_name(n)`. -/
def withFileName (s n : String) : String :=
  let d := dirName s
  if d == "" then n else d ++ "/" ++ n

/-- Is the path absolute?  Modelled as starting with a slash. -/
def isAbsPath (p : String) : Bool :=
  strStartsWith p "/"

/-- Resolve a possibly-relative path against a base directory.  This models
the repeated source idiom `expanduser` / `is_absolute` / `(base / p).resolve()`;
tilde expansion and symlink normalisation are abstracted away. -/
def resolvePath (base p : String) : String :=
  if isAbsPath p then p else base ++ "/" ++ p

/-- Split a character list at the first occurrence of a separator, which is
known to occur. -/
def splitFirstAux (sep : Char) : List Char → List Char → (List Char × List Char)
  | [], acc => (acc.reverse, [])
  | c :: cs, acc =>
    if c == sep then (acc.reverse, cs) else splitFirstAux sep cs (c :: acc)

/-- Render a natural number in decimal (Python `str`). -/
def natToStr (n : Nat) : String := toString n

/-! ## Data model (src/cax/models.py) -/

/-- Metadata captured from the cactus-prepare output header, models.py
`PrepareHeader` (the datetime value is kept as its string form; no claim
inspects it). -/
structure PrepareHeader where
  generated_by : String
  date : String
  cactus_commit : Option String := none
  deriving Repr, DecidableEq

/-- A single command step, models.py `Step`.  The `kind` field carries one of
the `StepKind` literal strings. -/
structure Step where
  raw : String
  kind : String
  jobstore : Option String := none
  out_files : List String := []
  root : Option String := none
  log_file : Option String := none
  label : Option String := none
  deriving Repr, DecidableEq

/-- models.py `Step.short_label`: the explicit label when non-empty, else
`kind-root` for blast/align/ramax steps with a root, else the first token of
the raw command (the validator strips `raw`, so a non-empty `raw` has a
first token), else the literal `step`. -/
def Step.shortLabel (s : Step) : String :=
  let lbl := s.label.getD ""
  if lbl != "" then lbl
  else
    let rt := s.root.getD ""
    if (s.kind == "blast" || s.kind == "align" || s.kind == "ramax") && rt != "" then
      s.kind ++ "-" ++ rt
    else if s.raw != "" then (splitWsStr s.raw).headD "step"
    else "step"

/-- A logical alignment round, models.py `Round`. -/
structure Round where
  name : String
  root : String
  target_hal : String
  blast_step : Option Step := none
  align_step : Option Step := none
  hal2fasta_steps : List Step := []
  replace_with_ramax : Bool := false
  workdir : Option String := none
  ramax_opts : List String := []
  manual_ramax_command : Option String := none
  deriving Repr, DecidableEq

/-- The full execution plan, models.py `Plan`, field for field.  Note that
the source `Plan` model (models.py lines 82-99) declares exactly these
fields; in particular there is no `fallback_policy` field. -/
structure Plan where
  header : PrepareHeader
  preprocess : List Step := []
  rounds : List Round := []
  hal_merges : List Step := []
  out_seq_file : String
  out_dir : Option String := none
  dry_run : Bool := false
  global_ramax_opts : List String := []
  deriving Repr, DecidableEq

/-! ## Planner (src/cax/planner.py) -/

/-- planner.py `PlannedCommand`. -/
structure PlannedCommand where
  command : List String
  category : String
  display_name : String
  log_path : Option String := none
  round_name : Option String := none
  step : Option Step := none
  is_ramax : Bool := false
  fallback_steps : List Step := []
  workdir : Option String := none
  deriving Repr, DecidableEq

/-- A default command value, used only as the out-of-range placeholder of
`List.getD` in theorem statements. -/
def defaultCmd : PlannedCommand :=
  { command := [], category := "", display_name := "" }

/-- planner.py `PlannedCommand.shell_preview` (`shlex.join`). -/
def PlannedCommand.shellPreview (c : PlannedCommand) : String :=
  joinTokens c.command

/-- planner.py `_split_command`: `shlex.split`, falling back to `str.split`
on a lexing error; modelled as whitespace tokenisation (the two coincide on
the quote-free commands handled here). -/
def splitCommand (raw : String) : List String :=
  splitWsStr raw

/-- planner.py `_normalize_hal2fasta`, inner loop: drop every
`--outFaPath value` pair (the boolean argument is the `skip_next` state). -/
def stripOutFaPathAux : Bool → List String → List String
  | _, [] => []
  | true, _ :: ts => stripOutFaPathAux false ts
  | false, t :: ts =>
    if t == "--outFaPath" then stripOutFaPathAux true ts
    else t :: stripOutFaPathAux false ts

/-- planner.py `_normalize_hal2fasta`: convert a trailing shell redirection
into an explicit `--outFaPath` option. -/
def normalizeHal2fasta (command : List String) : List String :=
  if !(command.contains ">") && !(command.contains ">>") then command
  else
    let redirectToken := if command.contains ">" then ">" else ">>"
    match command.findIdx? (fun t => t == redirectToken) with
    | none => command
    | some ri =>
      let outPath := if ri + 1 < command.length then command.getD (ri + 1) "" else ""
      let main := command.take ri
      let cleaned := stripOutFaPathAux false main
      if outPath != "" then cleaned ++ ["--outFaPath", outPath] else cleaned

/-- planner.py `_from_step`. -/
def fromStep (step : Step) (category : String) (base : String)
    (roundName : Option String) : PlannedCommand :=
  let command := splitCommand step.raw
  let command := if step.kind == "hal2fasta" then normalizeHal2fasta command else command
  let logPath :=
    match step.log_file with
    | some lf => if lf == "" then none else some (resolvePath base lf)
    | none => none
  { command := command
    category := category
    display_name := step.shortLabel
    log_path := logPath
    round_name := roundName
    step := some step }

/-- The Python exception surfaced by the planner embedding. -/
inductive PyError where
  | attributeError (attr : String)
  deriving Repr, DecidableEq

/-- Attribute lookup for `plan.fallback_policy`, read at planner.py line 56.
The `Plan` model (models.py lines 82-99) declares no `fallback_policy`
field, so pydantic attribute lookup finds nothing and Python raises
`AttributeError`; the lookup is therefore constantly `none`. -/
def fallbackPolicyAttr (_ : Plan) : Option String := none

/-- planner.py `_guess_ramax_log_path`. -/
def guessRamaxLogPath (plan : Plan) (r : Round) (base : String) : Option String :=
  let fromOutDir : Option String :=
    match plan.out_dir with
    | some od =>
      if od == "" then none
      else some (resolvePath base (od ++ "/logs/ramax-" ++ r.root ++ ".log"))
    | none => none
  match r.align_step with
  | some st =>
    match st.log_file with
    | some lf =>
      if lf == "" then fromOutDir
      else
        let ramaxName := strReplace (baseName lf) "align" "ramax"
        some (resolvePath base (withFileName lf ramaxName))
    | none => fromOutDir
  | none => fromOutDir

/-- planner.py `_ramax_command`. -/
def ramaxCommand (plan : Plan) (r : Round) (base : String)
    (fallbackPolicy : String) : PlannedCommand :=
  let wd0 := r.workdir.getD ""
  let workdir :=
    if wd0 == "" then
      match plan.out_dir with
      | some od => if od == "" then "" else od ++ "/temps/blast-" ++ r.root
      | none => ""
    else wd0
  let command := ["RaMAx", "-i", plan.out_seq_file, "-o", r.target_hal, "--root", r.root]
  let command := if workdir == "" then command else command ++ ["-w", workdir]
  let command := command ++ plan.global_ramax_opts ++ r.ramax_opts
  let fallbackSteps :=
    if fallbackPolicy == "cactus" then
      (match r.blast_step with | some st => [st] | none => []) ++
      (match r.align_step with | some st => [st] | none => [])
    else []
  { command := command
    category := "ramax"
    display_name := "RaMAx-" ++ r.root
    log_path := guessRamaxLogPath plan r base
    round_name := some r.name
    step := none
    is_ramax := true
    fallback_steps := fallbackSteps
    workdir := if workdir == "" then none else some (resolvePath base workdir) }

/-- planner.py `_round_commands`.  When the round is replaced with RaMAx the
source evaluates `plan.fallback_policy` (line 56) before calling
`_ramax_command`; since `Plan` has no such field this access raises, which
the embedding records as an `Except.error`. -/
def roundCommands (plan : Plan) (r : Round) (base : String) :
    Except PyError (List PlannedCommand) :=
  let halCmds := r.hal2fasta_steps.map (fun st => fromStep st "hal2fasta" base (some r.name))
  if r.replace_with_ramax then
    match fallbackPolicyAttr plan with
    | none => .error (.attributeError "fallback_policy")
    | some fp => .ok ([ramaxCommand plan r base fp] ++ halCmds)
  else
    let blastCmds :=
      match r.blast_step with
      | some st => [fromStep st "blast" base (some r.name)]
      | none => []
    let alignCmds :=
      match r.align_step with
      | some st => [fromStep st "align" base (some r.name)]
      | none => []
    .ok (blastCmds ++ alignCmds ++ halCmds)

/-- Sequential planning of the rounds list, the middle loop of
planner.py `build_execution_plan`. -/
def planRounds (plan : Plan) (base : String) :
    List Round → Except PyError (List PlannedCommand)
  | [] => .ok []
  | r :: rs =>
    match roundCommands plan r base with
    | .error e => .error e
    | .ok cs =>
      match planRounds plan base rs with
      | .error e => .error e
      | .ok rest => .ok (cs ++ rest)

/-- planner.py `build_execution_plan(plan, base_dir)`.  The source function
takes exactly these two inputs: it has no tree parameter and no
`thread_count` parameter, and it iterates `plan.rounds` in declaration
order. -/
def buildExecutionPlan (plan : Plan) (base : String) :
    Except PyError (List PlannedCommand) :=
  let pre := plan.preprocess.map (fun st => fromStep st "preprocess" base none)
  match planRounds plan base plan.rounds with
  | .error e => .error e
  | .ok rcs =>
    .ok (pre ++ rcs ++ plan.hal_merges.map (fun st => fromStep st "halmerge" base none))

/-! ## Filesystem model -/

/-- What a path resolves to on disk: a valid-UTF-8 text file (its lines,
with gzip decompression abstracted), a readable file whose bytes are not
valid UTF-8 (carrying the lines a lenient `errors="replace"` decode
yields; a strict decode raises `UnicodeDecodeError`), a file whose read
raises `OSError`, or a directory. -/
inductive FileData where
  | text (lines : List String)
  | binary (replacedLines : List String)
  | unreadable
  | dir
  deriving Repr, DecidableEq

/-- A finite filesystem: a map from (resolved) paths to file data. -/
structure FS where
  entries : List (String × FileData)
  deriving Repr, DecidableEq

/-- Python `Path.exists()`. -/
def FS.pathExists (fs : FS) (p : String) : Bool :=
  (fs.entries.lookup p).isSome

/-- Open a path with `errors="replace"` (as every line-oriented reader in
resume.py does) and read its lines; `none` models `OSError` (missing file,
unreadable file, or a directory).  A non-UTF-8 file reads fine this way,
yielding its replacement-decoded lines. -/
def FS.read (fs : FS) (p : String) : Option (List String) :=
  match fs.entries.lookup p with
  | some (.text ls) => some ls
  | some (.binary ls) => some ls
  | _ => none

/-- The exception a strict-decode read can raise: `OSError`, or the
`UnicodeDecodeError` (a `ValueError`) that invalid UTF-8 bytes produce. -/
inductive ReadErr where
  | osError
  | unicodeDecodeError
  deriving Repr, DecidableEq

/-- Python `path.read_text(encoding="utf-8")`: the whole text under a
strict UTF-8 decode.  Unlike the lenient readers, a non-UTF-8 file raises
`UnicodeDecodeError` here. -/
def FS.readTextStrict (fs : FS) (p : String) : Except ReadErr String :=
  match fs.entries.lookup p with
  | some (.text ls) => .ok (String.intercalate "\n" ls)
  | some (.binary _) => .error .unicodeDecodeError
  | _ => .error .osError

/-! ## Resume engine (src/cax/resume.py) -/

/-- SHA-1 modelled as an injective encoding of the hashed byte stream: the
stream itself.  The source compares digests only for equality, which the
injective model preserves. -/
def sha1Model (data : String) : String := data

/-- resume.py `_strip_flag` (the boolean argument is the loop's `skip_next`
state): drop `flag value` pairs and `flag=value` tokens. -/
def stripFlagAux (flag : String) : Bool → List String → List String
  | _, [] => []
  | true, _ :: ts => stripFlagAux flag false ts
  | false, t :: ts =>
    if t == flag then stripFlagAux flag true ts
    else if strStartsWith t (flag ++ "=") then stripFlagAux flag false ts
    else t :: stripFlagAux flag false ts

/-- resume.py `_strip_switch`: drop a boolean switch token (and any
`flag=value` spelling of it). -/
def stripSwitch (tokens : List String) (flag : String) : List String :=
  tokens.filter (fun t => !(t == flag) && !(strStartsWith t (flag ++ "=")))

/-- resume.py `_canonical_shell_preview`: strip `--maxCores` and `--restart`
from cactus-family commands and `--threads` from ramax commands, then join. -/
def canonicalShellPreview (tokens : List String) : String :=
  match tokens with
  | [] => ""
  | t0 :: _ =>
    let name := lcStr (baseName t0)
    let ct := tokens
    let ct :=
      if strStartsWith name "cactus" then
        stripSwitch (stripFlagAux "--maxCores" false ct) "--restart"
      else ct
    let ct := if name == "ramax" then stripFlagAux "--threads" false ct else ct
    joinTokens ct

/-- resume.py `command_canonical_preview`. -/
def commandCanonicalPreview (c : PlannedCommand) : String :=
  canonicalShellPreview c.command

/-- resume.py `_stable_key`: SHA-1 over display name, a NUL byte, and the
canonical preview. -/
def stableKey (displayName canonicalPreview : String) : String :=
  sha1Model (displayName ++ "\x00" ++ canonicalPreview)

/-- resume.py `command_stable_key`. -/
def commandStableKey (c : PlannedCommand) : String :=
  stableKey c.display_name (commandCanonicalPreview c)

/-- Python `str(thread_count or "")`: `None` and `0` are both falsy and
render as the empty string. -/
def pyThreadStr : Option Nat → String
  | none => ""
  | some 0 => ""
  | some n => natToStr n

/-- resume.py `plan_signature`: SHA-1 over the base directory, the
thread-count override, and, per command, its full shell preview followed by
its workdir when set.  Note the source hashes `cmd.shell_preview()`, not the
canonical preview. -/
def planSignature (cmds : List PlannedCommand) (baseDir : String)
    (threadCount : Option Nat) : String :=
  sha1Model (baseDir ++ pyThreadStr threadCount ++
    String.join (cmds.map fun c => c.shellPreview ++ (c.workdir.getD "")))

/-- Insert with Python-dict semantics: overwrite an existing key in place,
else append, preserving insertion order. -/
def dictInsert {β : Type} (m : List (String × β)) (k : String) (v : β) :
    List (String × β) :=
  if (m.lookup k).isSome then
    m.map (fun kv => if kv.1 == k then (k, v) else kv)
  else m ++ [(k, v)]

/-- resume.py `_parse_paf_name`: strip, drop an `id=` marker, and split
`event|contig` at the first bar; both halves must be non-empty (the caller
skips the pair otherwise, which the `Option` models). -/
def parsePafName (name : String) : Option (String × String) :=
  let value := pyStrip name
  let value := if strStartsWith value "id=" then strDropLeft value 3 else value
  if !(value.data.contains '|') then none
  else
    let (ev, ct) := splitFirstAux '|' value.data []
    if ev == [] || ct == [] then none
    else some (String.mk ev, String.mk ct)

/-- Record one contig under its event, with set semantics for the contig
collection and insertion order preserved for events (Python
`needed.setdefault(event, set()).add(contig)`). -/
def addContig (needed : List (String × List String)) (event contig : String) :
    List (String × List String) :=
  if (needed.lookup event).isSome then
    needed.map (fun kv =>
      if kv.1 == event then (kv.1, if kv.2.contains contig then kv.2 else kv.2 ++ [contig])
      else kv)
  else needed ++ [(event, [contig])]

/-- Feed one PAF column entry into the needed-contig table. -/
def addPafName (needed : List (String × List String)) (name : String) :
    List (String × List String) :=
  match parsePafName name with
  | none => needed
  | some (ev, ct) => addContig needed ev ct

/-- Line loop of resume.py `_collect_needed_contigs_from_paf`: skip blanks
and comments, require at least six tab-separated fields, take the query and
target names (fields 0 and 5), and stop after `limit` sampled records. -/
def collectPafLines (limit : Nat) :
    List String → Nat → List (String × List String) → List (String × List String)
  | [], _, acc => acc
  | line :: rest, seen, acc =>
    if pyStrip line == "" || strStartsWith (pyStrip line) "#" then
      collectPafLines limit rest seen acc
    else if (splitOnCharStr '\t' (pyStrip line)).length < 6 then
      collectPafLines limit rest seen acc
    else if limit ≤ seen + 1 then
      addPafName (addPafName acc ((splitOnCharStr '\t' (pyStrip line)).getD 0 ""))
        ((splitOnCharStr '\t' (pyStrip line)).getD 5 "")
    else
      collectPafLines limit rest (seen + 1)
        (addPafName (addPafName acc ((splitOnCharStr '\t' (pyStrip line)).getD 0 ""))
          ((splitOnCharStr '\t' (pyStrip line)).getD 5 ""))

/-- resume.py `_collect_needed_contigs_from_paf` (an `OSError` yields the
empty table). -/
def collectNeededContigsFromPaf (fs : FS) (pafPath : String) (limit : Nat) :
    List (String × List String) :=
  match fs.read pafPath with
  | none => []
  | some lines => collectPafLines limit lines 0 []

/-- One line of the seqfile mapping: `event path`, skipping blanks and
comments and lines with fewer than two tokens. -/
def seqLineAdd (base : String) (m : List (String × String)) (line : String) :
    List (String × String) :=
  let s := pyStrip line
  if s == "" || strStartsWith s "#" then m
  else
    match splitWsStr s with
    | name :: pathLike :: _ => dictInsert m name (resolvePath base pathLike)
    | _ => m

/-- resume.py `_parse_seqfile_mapping`: discard the first (Newick) line, then
collect `event → resolved fasta path`; an `OSError` yields the empty map. -/
def parseSeqfileMapping (fs : FS) (seqfilePath : String) (base : String) :
    List (String × String) :=
  match fs.read seqfilePath with
  | none => []
  | some lines => (lines.drop 1).foldl (seqLineAdd base) []

/-- Extract the header token of a FASTA description line: the first
whitespace-separated word after the `>` (the source indexes `split()[0]`,
which raises on a bare `>` line; that unreached edge is modelled as the
empty header). -/
def fastaHeaderOf (line : String) : String :=
  (splitWsStr (pyStrip (strDropLeft line 1))).headD ""

/-- Scan loop of resume.py `_fasta_contains_all_contigs`: cross contigs off
the remaining set as their headers appear, returning true as soon as the set
empties (the set is a duplicate-free list here). -/
def fastaScan (remaining : List String) : List String → Bool
  | [] => false
  | line :: rest =>
    if !(strStartsWith line ">") then fastaScan remaining rest
    else if remaining.contains (fastaHeaderOf line) then
      if (remaining.erase (fastaHeaderOf line)).isEmpty then true
      else fastaScan (remaining.erase (fastaHeaderOf line)) rest
    else fastaScan remaining rest

/-- resume.py `_fasta_contains_all_contigs`: true when the wanted set is
empty, false on `OSError`, else the scan result. -/
def fastaContainsAllContigs (fs : FS) (path : String) (contigs : List String) : Bool :=
  if contigs.isEmpty then true
  else
    match fs.read path with
    | none => false
    | some lines => fastaScan contigs lines

/-- resume.py `_seqfile_from_cactus_blast`: the third token of the command
(`cactus-blast jobstore seqfile out.paf ...`), resolved. -/
def seqfileFromCactusBlast (base : String) (c : PlannedCommand) : Option String :=
  if c.command.length < 3 then none
  else some (resolvePath base (c.command.getD 2 ""))

/-- resume.py `_blast_paf_matches_seqfile`: the cross-check fires only for
commands whose executable basename is `cactus-blast`, with an existing
seqfile argument yielding a non-empty mapping; it then demands that every
sampled `event|contig` pair resolve to a mapped FASTA containing the contig.
The Python early-return-false loops are expressed with `List.all`. -/
def blastPafMatchesSeqfile (fs : FS) (base : String) (c : PlannedCommand)
    (pafPaths : List String) : Bool :=
  if !(lcStr (baseName (c.command.headD "")) == "cactus-blast") then true
  else
    match seqfileFromCactusBlast base c with
    | none => true
    | some sf =>
      if !(fs.pathExists sf) then true
      else if (parseSeqfileMapping fs sf base).isEmpty then true
      else
        pafPaths.all fun paf =>
          (collectNeededContigsFromPaf fs paf 200).all fun ec =>
            match (parseSeqfileMapping fs sf base).lookup ec.1 with
            | none => false
            | some fastaPath => fastaContainsAllContigs fs fastaPath ec.2

/-- resume.py `outputs_exist`: every declared output of the source step must
exist; blast steps additionally pass the PAF/FASTA cross-check on their
`.paf` outputs. -/
def outputsExist (fs : FS) (base : String) (c : PlannedCommand) : Bool :=
  match c.step with
  | none => true
  | some st =>
    if st.out_files.isEmpty then true
    else if !((st.out_files.map (resolvePath base)).all fs.pathExists) then false
    else if st.kind == "blast" then
      if !((st.out_files.map (resolvePath base)).filter
            (fun p => strEndsWith p ".paf")).isEmpty
          && !(blastPafMatchesSeqfile fs base c
            ((st.out_files.map (resolvePath base)).filter
              (fun p => strEndsWith p ".paf"))) then false
      else true
    else true

/-- One persisted state entry, reduced to the field the skip computation
reads (`entry.get("status")`; an entry without the key reads as `none`). -/
structure StateEntry where
  status : Option String := none
  deriving Repr, DecidableEq

/-- Skip condition for one command, the loop body of runner.py
`_RunState.compute_skips` and resume.py `_prefix_skipped_indices`: a state
entry exists under the command's stable key, records success, and the
outputs verify. -/
def skipCond (entries : List (String × StateEntry)) (fs : FS) (base : String)
    (c : PlannedCommand) : Bool :=
  match entries.lookup (commandStableKey c) with
  | none => false
  | some e => e.status == some "success" && outputsExist fs base c

/-- Index loop of `compute_skips`, carrying the running index. -/
def computeSkipsGo (entries : List (String × StateEntry)) (fs : FS) (base : String)
    (idx : Nat) : List PlannedCommand → List Nat
  | [] => []
  | c :: cs =>
    if skipCond entries fs base c then idx :: computeSkipsGo entries fs base (idx + 1) cs
    else []

/-- runner.py `_RunState.compute_skips` / resume.py
`_prefix_skipped_indices`: scan in order, keep skipping while the condition
holds, and stop at the first failure (the returned index set, here an
ordered list). -/
def computeSkips (entries : List (String × StateEntry)) (fs : FS) (base : String)
    (cmds : List PlannedCommand) : List Nat :=
  computeSkipsGo entries fs base 0 cmds

/-- The decoded shape of `run_state.json` (the fields the resume engine
reads). -/
structure RunStateData where
  plan_signature : Option String := none
  commands : List (String × StateEntry) := []
  deriving Repr, DecidableEq

/-- The no-prior-state value, Python's empty dict result. -/
def emptyRunState : RunStateData := {}

/-- resume.py `load_run_state_file`: a missing path returns the empty
state; reading and JSON-decoding happen inside a try block whose except
clause catches exactly `(OSError, json.JSONDecodeError)` and returns the
empty state.  The strict-UTF-8 `read_text` can also raise
`UnicodeDecodeError`, which that clause does not catch, so it propagates
to the caller — modelled as the `Except.error` outcome.  The `decode`
argument models `json.loads` plus the shape of the state file, with `none`
standing for invalid JSON (`JSONDecodeError`, caught). -/
def loadRunStateFile (fs : FS) (decode : String → Option RunStateData)
    (path : String) : Except ReadErr RunStateData :=
  if !(fs.pathExists path) then .ok emptyRunState
  else
    match fs.readTextStrict path with
    | .error .osError => .ok emptyRunState
    | .error .unicodeDecodeError => .error .unicodeDecodeError
    | .ok text =>
      match decode text with
      | none => .ok emptyRunState
      | some d => .ok d

/-! ## Process runner jobstore reconciliation (src/cax/runner.py) -/

/-- runner.py `_resolve_jobstore_path`: strip a `file:` scheme (Python
`value.split(":", 1)[1]`, which for the `file:` scheme drops exactly the
first five characters) and resolve. -/
def resolveJobstorePath (base : String) (jobstore : String) : String :=
  let value := if strStartsWith jobstore "file:" then strDropLeft jobstore 5 else jobstore
  resolvePath base value

/-- What `_prepare_toil_jobstore` did to the jobstore directory. -/
inductive JobstoreAction where
  | noop
  | cleaned
  | restarted
  deriving Repr, DecidableEq

/-- runner.py `PlanRunner._prepare_toil_jobstore`, as a pure decision: given
the command, the prior state entry's status, and whether this command is the
first rerun target (`allow_restart`), return what happens to the jobstore
and the resulting command tokens.  The source mutates `command.command` in
place when appending `--restart`; here the new token list is returned. -/
def prepareToilJobstore (fs : FS) (base : String) (c : PlannedCommand)
    (entryStatus : Option String) (allowRestart : Bool) :
    JobstoreAction × List String :=
  match c.step with
  | none => (.noop, c.command)
  | some st =>
    match st.jobstore with
    | none => (.noop, c.command)
    | some js =>
      if js == "" then (.noop, c.command)
      else
        let jsPath := resolveJobstorePath base js
        if !(fs.pathExists jsPath) then (.noop, c.command)
        else
          let isRF := entryStatus == some "running" || entryStatus == some "failed"
          if isRF && !allowRestart then (.cleaned, c.command)
          else if isRF && allowRestart then
            let marker := jsPath ++ "/files/shared/rootJobStoreID"
            if !(fs.pathExists marker) then (.cleaned, c.command)
            else
              (.restarted,
                if c.command.contains "--restart" then c.command
                else c.command ++ ["--restart"])
          else (.cleaned, c.command)

/-! ## Tree model (src/cax/tree_utils.py)

The source `AlignmentNode` is a mutable dataclass with an owned child list
and a non-owning parent back-reference; the embedding keeps the owned
structure (the parent pointer is derivable and no claim reads it).  Branch
lengths and support values are kept as their raw source tokens: the source
converts them with Python `float()`, whose numeric value no claim inspects,
and a token the modelled literal grammar rejects becomes `none` exactly
where `float()` would raise.  Children are a mutually inductive forest so
that all recursion stays structural. -/

mutual
inductive AlignmentNode where
  | mk (name : String) (length : Option String) (support : Option String)
       (round : Option Round) (children : AlignmentForest)
  deriving Repr, DecidableEq
inductive AlignmentForest where
  | nil
  | cons (head : AlignmentNode) (tail : AlignmentForest)
  deriving Repr, DecidableEq
end

/-- Name of a node. -/
def AlignmentNode.name : AlignmentNode → String
  | .mk n _ _ _ _ => n

/-- Bound round of a node. -/
def AlignmentNode.round : AlignmentNode → Option Round
  | .mk _ _ _ r _ => r

/-- Children of a node. -/
def AlignmentNode.children : AlignmentNode → AlignmentForest
  | .mk _ _ _ _ cs => cs

/-- The forest as a Lean list. -/
def AlignmentForest.toList : AlignmentForest → List AlignmentNode
  | .nil => []
  | .cons c cs => c :: cs.toList

mutual
/-- tree_utils.py `AlignmentNode.iter_rounds`: pre-order collection of every
bound round in the subtree. -/
def AlignmentNode.iterRounds : AlignmentNode → List Round
  | .mk _ _ _ r cs =>
    (match r with | some rr => [rr] | none => []) ++ AlignmentForest.iterRounds cs
def AlignmentForest.iterRounds : AlignmentForest → List Round
  | .nil => []
  | .cons c cs => c.iterRounds ++ cs.iterRounds
end

mutual
/-- tree_utils.py `_attach_rounds`: bind the mapped round to every node
whose name is a key of the round map (built from `round.root`). -/
def attachRounds (rm : List (String × Round)) : AlignmentNode → AlignmentNode
  | .mk n len sup r cs =>
    let r2 := match rm.lookup n with
      | some rr => some rr
      | none => r
    .mk n len sup r2 (attachRoundsForest rm cs)
def attachRoundsForest (rm : List (String × Round)) : AlignmentForest → AlignmentForest
  | .nil => .nil
  | .cons c cs => .cons (attachRounds rm c) (attachRoundsForest rm cs)
end

/-- The round map of tree_utils.py `build_alignment_tree`:
`round.root → round`, with dict overwrite semantics. -/
def roundMapOf (plan : Plan) : List (String × Round) :=
  plan.rounds.foldl (fun m r => dictInsert m r.root r) []

/-- Characters that terminate a Newick label
(`_NewickParser._parse_label`). -/
def labelStop (c : Char) : Bool :=
  c == ':' || c == ',' || c == '(' || c == ')' || c == ';' || chIsWs c

/-- Scan a label's characters (accumulator reversed). -/
def takeLabelAux : List Char → List Char → (List Char × List Char)
  | [], acc => (acc.reverse, [])
  | c :: cs, acc =>
    if labelStop c then (acc.reverse, c :: cs)
    else takeLabelAux cs (c :: acc)

/-- `_parse_label`: skip whitespace, scan until a delimiter, skip trailing
whitespace (the scan stops at whitespace, so the source's `strip()` is the
identity on the slice). -/
def takeLabel (input : List Char) : List Char × List Char :=
  let (lbl, rest) := takeLabelAux (skipWs input) []
  (lbl, skipWs rest)

/-- Characters that terminate a branch-length token
(`_parse_branch_length_value`). -/
def lenStop (c : Char) : Bool :=
  c == ',' || c == '(' || c == ')' || c == ';' ||
  c == ' ' || c == '\t' || c == '\r' || c == '\n'

/-- Scan a branch-length token's characters (accumulator reversed). -/
def takeLenTokenAux : List Char → List Char → (List Char × List Char)
  | [], acc => (acc.reverse, [])
  | c :: cs, acc =>
    if lenStop c then (acc.reverse, c :: cs)
    else takeLenTokenAux cs (c :: acc)

/-- Does Python `float()` accept this token?  Modelled for plain decimal
literals: an optional sign, then digits with at most one dot and at least
one digit (exponent and special forms are abstracted away; no claim feeds
them to the parser). -/
def floatLiteralOk (s : String) : Bool :=
  let body :=
    match s.data with
    | c :: rest => if c == '+' || c == '-' then rest else c :: rest
    | [] => []
  !body.isEmpty && body.all (fun c => c.isDigit || c == '.') &&
    body.any Char.isDigit && body.count '.' ≤ 1

/-- `_parse_branch_length_value`: after a colon, scan the token; an empty or
non-float token gives `none` (the raw token is kept in place of its float
value). -/
def parseBranchLen (input : List Char) : Option String × List Char :=
  let s := skipWs input
  match s with
  | ':' :: rest =>
    let (tokChars, rest2) := takeLenTokenAux rest []
    let tok := pyStrip (String.mk tokChars)
    let rest3 := skipWs rest2
    if tok == "" then (none, rest3)
    else if floatLiteralOk tok then (some tok, rest3)
    else (none, rest3)
  | _ => (none, s)

/-- `_split_name_support`: an all-digits-and-dots label on an internal node
is a support value, not a name (and only when `float()` accepts it). -/
def splitNameSupport (label : String) (internal : Bool) : String × Option String :=
  let text := pyStrip label
  if internal && !(text == "") && text.data.all (fun ch => ch.isDigit || ch == '.') then
    ("", if floatLiteralOk text then some text else none)
  else (text, none)

mutual
/-- `_NewickParser._parse_subtree`: recursive descent over
`subtree := '(' subtree (',' subtree)* ')' label? (':' length)? |
label (':' length)?`.  The fuel argument (instantiated with the input
length plus one, ample since every recursive call consumes input) keeps the
recursion structural. -/
def parseSubtree : Nat → List Char → Except String (AlignmentNode × List Char)
  | 0, _ => .error "out of fuel"
  | fuel + 1, input =>
    let s := skipWs input
    match s with
    | '(' :: rest =>
      match parseChildren fuel rest with
      | .error e => .error e
      | .ok (children, rest1) =>
        let (labelChars, rest2) := takeLabel rest1
        let (len, rest3) := parseBranchLen rest2
        let ns := splitNameSupport (String.mk labelChars) true
        .ok (.mk ns.1 len ns.2 none children, rest3)
    | _ =>
      let (labelChars, rest2) := takeLabel s
      if labelChars == [] then .error "missing leaf label"
      else
        let (len, rest3) := parseBranchLen rest2
        let ns := splitNameSupport (String.mk labelChars) false
        .ok (.mk ns.1 len none none .nil, rest3)
/-- Child list of a parenthesised group: subtrees separated by commas,
closed by a right parenthesis. -/
def parseChildren : Nat → List Char → Except String (AlignmentForest × List Char)
  | 0, _ => .error "out of fuel"
  | fuel + 1, input =>
    match parseSubtree fuel input with
    | .error e => .error e
    | .ok (child, rest) =>
      let rest1 := skipWs rest
      match rest1 with
      | ',' :: more =>
        match parseChildren fuel more with
        | .error e => .error e
        | .ok (siblings, rest2) => .ok (.cons child siblings, rest2)
      | ')' :: more => .ok (.cons child .nil, more)
      | _ => .error "expected comma or close paren"
end

/-- `_NewickParser.parse`: parse one subtree, consume an optional trailing
semicolon, and reject trailing data. -/
def parseNewick (text : String) : Except String AlignmentNode :=
  let chars := (pyStrip text).data
  match parseSubtree (chars.length + 1) chars with
  | .error e => .error e
  | .ok (node, rest) =>
    let rest1 := skipWs rest
    let rest2 := match rest1 with
      | ';' :: r => r
      | r => r
    if skipWs rest2 == [] then .ok node
    else .error "unexpected trailing data"

/-! ## Concrete instances used by the claim theorems -/

/-- Header shared by the concrete plans (contents immaterial). -/
def exHeader : PrepareHeader :=
  { generated_by := "cactus-prepare --outSeqFile tree.nwk", date := "2024-01-01" }

/-- The ancestor round of the subtree-absorption fixture
(tests/test_planner_subtree_absorb.py): `replace_with_ramax` with the
subtree-mode marker. -/
def exRoundAnc0 : Round :=
  { name := "Anc0", root := "Anc0", target_hal := "Anc0.hal"
    replace_with_ramax := true, ramax_opts := ["--subtree-mode"] }

/-- The untouched (cactus) descendant round of the same fixture. -/
def exRoundAnc1 : Round :=
  { name := "Anc1", root := "Anc1", target_hal := "Anc1.hal"
    blast_step := some { raw := "blast Anc1", kind := "blast"
                         out_files := ["Anc1.paf"], root := some "Anc1" }
    align_step := some { raw := "align Anc1", kind := "align"
                         out_files := ["Anc1.hal"], root := some "Anc1" } }

/-- The subtree-absorption plan: subtree-mode RaMAx ancestor over a cactus
descendant, Newick tree `((a,b)Anc1)Anc0;` in the out-seq file. -/
def exPlanC1 : Plan :=
  { header := exHeader, rounds := [exRoundAnc0, exRoundAnc1]
    out_seq_file := "/b/tree.nwk", out_dir := some "/b" }

/-- The round of the ramax-options fixture
(tests/test_planner_ramax_options.py): marker plus a user thread flag. -/
def exRoundC2 : Round :=
  { name := "r1", root := "Anc0", target_hal := "out.hal"
    replace_with_ramax := true
    ramax_opts := ["--subtree-mode", "--threads", "4"] }

/-- The ramax-options plan. -/
def exPlanC2 : Plan :=
  { header := exHeader, rounds := [exRoundC2]
    out_seq_file := "seq.fa", out_dir := some "/tmp/x" }

/-- A plain cactus plan (no RaMAx replacement anywhere): one preprocess step
and one blast+align round. -/
def exPlanC7 : Plan :=
  { header := exHeader
    preprocess := [{ raw := "cactus-preprocess jobstore/0 seq.txt", kind := "preprocess" }]
    rounds := [{ name := "Anc1", root := "Anc1", target_hal := "Anc1.hal"
                 blast_step := some { raw := "cactus-blast jobstore/1 seq.txt Anc1.paf --root Anc1"
                                      kind := "blast", root := some "Anc1" }
                 align_step := some { raw := "cactus-align jobstore/2 seq.txt Anc1.paf Anc1.hal --root Anc1"
                                      kind := "align", root := some "Anc1" } }]
    out_seq_file := "seq.txt", out_dir := some "/b" }

/-- A preprocess step writing one declared output, indexed by a tag; used by
the resume fixtures. -/
def exStepOut (tag : String) : Step :=
  { raw := "cactus-preprocess " ++ tag ++ ".txt", kind := "preprocess"
    out_files := [tag ++ ".txt"], label := some ("prep-" ++ tag) }

/-- Three planned commands whose steps declare outputs `o0/o1/o2`. -/
def exCmdsC4 : List PlannedCommand :=
  [fromStep (exStepOut "o0") "preprocess" "/b" none,
   fromStep (exStepOut "o1") "preprocess" "/b" none,
   fromStep (exStepOut "o2") "preprocess" "/b" none]

/-- Prior state: all three commands recorded successful. -/
def exEntriesC4 : List (String × StateEntry) :=
  exCmdsC4.map (fun c => (commandStableKey c, { status := some "success" }))

/-- Disk state for the resume fixture: the first and third outputs exist,
the second was deleted. -/
def exFsC4 : FS :=
  { entries := [("/b/o0.txt", .text ["ok"]), ("/b/o2.txt", .text ["ok"])] }

/-- A blast-category planned command whose executable token is the plain
`blast` (exactly how the repository's own fixtures spell it), declaring one
PAF output. -/
def exCmdC6 : PlannedCommand :=
  fromStep { raw := "blast js1 seqfile.txt out.paf", kind := "blast"
             out_files := ["out.paf"], root := some "Anc1" }
    "blast" "/b" (some "Anc1")

/-- Disk state for the cross-check fixture: the PAF samples contigs `c1` and
`c2` of event `evA`, the seqfile maps `evA` to a FASTA, and that FASTA
contains neither contig. -/
def exFsC6 : FS :=
  { entries :=
      [("/b/out.paf", .text ["evA|c1\t10\t0\t10\t+\tevA|c2\t10\t0\t10\t5\t10\t60"]),
       ("/b/seqfile.txt", .text ["(evA);", "evA evA.fa"]),
       ("/b/evA.fa", .text [">other", "ACGT"])] }

/-- The same step with the executable renamed to `cactus-blast`, which is
the spelling the cross-check actually matches on. -/
def exStepC6b : Step :=
  { raw := "cactus-blast js1 seqfile.txt out.paf", kind := "blast"
    out_files := ["out.paf"], root := some "Anc1" }

/-- The planned command of `exStepC6b`. -/
def exCmdC6b : PlannedCommand :=
  fromStep exStepC6b "blast" "/b" (some "Anc1")

/-- Disk state where the cross-check passes: the mapped FASTA carries both
sampled contigs as headers. -/
def exFsC6ok : FS :=
  { entries :=
      [("/b/out.paf", .text ["evA|c1\t10\t0\t10\t+\tevA|c2\t10\t0\t10\t5\t10\t60"]),
       ("/b/seqfile.txt", .text ["(evA);", "evA evA.fa"]),
       ("/b/evA.fa", .text [">c1 extra words", "ACGT", ">c2", "ACGT"])] }

/-- A cactus command carrying an explicit `--maxCores` flag. -/
def exCmdC8a : PlannedCommand :=
  { command := ["cactus-blast", "js", "seq.txt", "out.paf", "--maxCores", "4"]
    category := "blast", display_name := "blast-x" }

/-- The same command without the thread flag: its canonical preview is
identical to `exCmdC8a`'s. -/
def exCmdC8b : PlannedCommand :=
  { command := ["cactus-blast", "js", "seq.txt", "out.paf"]
    category := "blast", display_name := "blast-x" }

/-- The Newick text of the tree fixture (tests/test_tree_utils.py). -/
def exNewick : String := "((A:0.1,B:0.2)N1:0.3,(C:0.4,D:0.5)N2:0.6)Root;"

/-- A cactus round bound to the named node, as the tree fixture builds
them. -/
def exTreeRound (nm : String) : Round :=
  { name := nm, root := nm, target_hal := nm ++ ".hal"
    blast_step := some { raw := "cactus-blast jobstore/1 input.txt " ++ nm ++ ".paf"
                         kind := "blast", root := some nm }
    align_step := some { raw := "cactus-align jobstore/2 input.txt " ++ nm ++ ".hal"
                         kind := "align", root := some nm } }

/-- The tree-fixture plan: rounds bound to N1, N2 and Root. -/
def exPlanC10 : Plan :=
  { header := exHeader
    rounds := [exTreeRound "N1", exTreeRound "N2", exTreeRound "Root"]
    out_seq_file := "tree.txt" }

/-- The tree the fixture text parses to. -/
def exTreeC10 : AlignmentNode :=
  .mk "Root" none none none
    (.cons (.mk "N1" (some "0.3") none none
        (.cons (.mk "A" (some "0.1") none none .nil)
          (.cons (.mk "B" (some "0.2") none none .nil) .nil)))
      (.cons (.mk "N2" (some "0.6") none none
          (.cons (.mk "C" (some "0.4") none none .nil)
            (.cons (.mk "D" (some "0.5") none none .nil) .nil)))
        .nil))

/-! ## Helper lemmas -/

/-- Length of the prefix of commands satisfying the skip condition; the
characterising quantity of `computeSkips`. -/
def condPrefixLen (entries : List (String × StateEntry)) (fs : FS) (base : String) :
    List PlannedCommand → Nat
  | [] => 0
  | c :: cs =>
    if skipCond entries fs base c then condPrefixLen entries fs base cs + 1 else 0

theorem computeSkipsGo_eq_range (entries : List (String × StateEntry)) (fs : FS)
    (base : String) :
    ∀ (cmds : List PlannedCommand) (n : Nat),
      computeSkipsGo entries fs base n cmds
        = List.range' n (condPrefixLen entries fs base cmds) := by
  intro cmds
  induction cmds with
  | nil => intro n; simp [computeSkipsGo, condPrefixLen]
  | cons c cs ih =>
    intro n
    by_cases hc : skipCond entries fs base c
    · simp [computeSkipsGo, condPrefixLen, hc, ih, List.range']
    · simp [computeSkipsGo, condPrefixLen, hc, List.range']

theorem condPrefixLen_lt (entries : List (String × StateEntry)) (fs : FS)
    (base : String) :
    ∀ (cmds : List PlannedCommand) (i : Nat),
      i < condPrefixLen entries fs base cmds ↔
        (i < cmds.length ∧
          ∀ j, j ≤ i → skipCond entries fs base (cmds.getD j defaultCmd) = true) := by
  intro cmds
  induction cmds with
  | nil => intro i; simp [condPrefixLen]
  | cons c cs ih =>
    intro i
    by_cases hc : skipCond entries fs base c
    · cases i with
      | zero =>
        simp only [condPrefixLen, hc, if_true]
        constructor
        · intro _
          exact ⟨Nat.succ_pos _, by
            intro j hj
            interval_cases j
            simpa [List.getD_cons_zero] using hc⟩
        · intro _; exact Nat.succ_pos _
      | succ i2 =>
        simp only [condPrefixLen, hc, if_true]
        constructor
        · intro h
          have h2 := (ih i2).mp (by omega)
          refine ⟨by simpa [List.length_cons] using Nat.succ_lt_succ h2.1, ?_⟩
          intro j hj
          cases j with
          | zero => simpa [List.getD_cons_zero] using hc
          | succ j2 => simpa [List.getD_cons_succ] using h2.2 j2 (by omega)
        · rintro ⟨hlen, hall⟩
          have h2 : i2 < condPrefixLen entries fs base cs := by
            refine (ih i2).mpr ⟨by simp [List.length_cons] at hlen; omega, ?_⟩
            intro j hj
            simpa [List.getD_cons_succ] using hall (j + 1) (by omega)
          omega
    · simp only [condPrefixLen, hc, if_false]
      constructor
      · intro h; exact absurd h (Nat.not_lt_zero _)
      · rintro ⟨-, hall⟩
        exact absurd (by simpa [List.getD_cons_zero] using hall 0 (Nat.zero_le _)) hc

theorem planRounds_ramax_err (plan : Plan) (base : String) :
    ∀ rounds : List Round, (∃ r ∈ rounds, r.replace_with_ramax = true) →
      planRounds plan base rounds = .error (.attributeError "fallback_policy") := by
  intro rounds h
  induction rounds with
  | nil => simp at h
  | cons r rs ih =>
    by_cases hr : r.replace_with_ramax = true
    · simp [planRounds, roundCommands, hr, fallbackPolicyAttr]
    · obtain ⟨r2, hmem, hra⟩ := h
      rcases List.mem_cons.mp hmem with heq | hmem2
      · exact absurd (heq ▸ hra) hr
      · have hrec := ih ⟨r2, hmem2, hra⟩
        simp [planRounds, roundCommands, hr, hrec]

/-! ## Claim theorems -/

/-- C1.  The claim states that with a subtree-mode RaMAx ancestor the
planner emits exactly one ramax command for the ancestor and nothing for any
descendant round.  On the source, `build_execution_plan` takes no alignment
tree and applies no absorption: on the repository's own subtree-absorption
fixture it instead raises `AttributeError` on the missing
`plan.fallback_policy` field, and its per-round helper plans the cactus
descendant's blast and align commands regardless of the ancestor's marker
(contradicting tests/test_planner_subtree_absorb.py). -/
theorem c1_subtree_absorption_not_implemented :
    buildExecutionPlan exPlanC1 "/b" = .error (.attributeError "fallback_policy") ∧
    (roundCommands exPlanC1 exRoundAnc1 "/b").map
        (fun cs => cs.map (fun c => (c.category, c.round_name)))
      = .ok [("blast", some "Anc1"), ("align", some "Anc1")] :=
  ⟨rfl, rfl⟩

/-- C2.  The claim states the emitted ramax argument list strips the
subtree-mode marker from the round's option tokens.  The source
`_ramax_command` appends `round_entry.ramax_opts` verbatim, so the marker
token survives in the exact position the claim says it must not occupy
(contradicting tests/test_planner_ramax_options.py); and reaching
`_ramax_command` through `build_execution_plan` is impossible anyway because
the `plan.fallback_policy` read raises first. -/
theorem c2_subtree_marker_not_stripped :
    (ramaxCommand exPlanC2 exRoundC2 "/b" "abort").command
      = ["RaMAx", "-i", "seq.fa", "-o", "out.hal", "--root", "Anc0",
         "-w", "/tmp/x/temps/blast-Anc0", "--subtree-mode", "--threads", "4"] ∧
    "--subtree-mode" ∈ (ramaxCommand exPlanC2 exRoundC2 "/b" "abort").command ∧
    buildExecutionPlan exPlanC2 "/b" = .error (.attributeError "fallback_policy") :=
  ⟨rfl, by decide, rfl⟩

/-- C3.  For every plan containing at least one round with
`replace_with_ramax` set, `build_execution_plan` raises `AttributeError` on
the `plan.fallback_policy` read (planner.py line 56) instead of returning a
command list, because the `Plan` model (models.py lines 82-99) declares no
such field. -/
theorem c3_missing_fallback_policy_raises (plan : Plan) (base : String)
    (h : ∃ r ∈ plan.rounds, r.replace_with_ramax = true) :
    buildExecutionPlan plan base = .error (.attributeError "fallback_policy") := by
  have hrr := planRounds_ramax_err plan base plan.rounds h
  simp [buildExecutionPlan, hrr]

/-- Witness for C3 at the subtree-absorption fixture. -/
theorem c3_missing_fallback_policy_raises_witness :
    buildExecutionPlan exPlanC1 "/b" = .error (.attributeError "fallback_policy") :=
  c3_missing_fallback_policy_raises exPlanC1 "/b" ⟨exRoundAnc0, by decide, rfl⟩

/-- C4.  `compute_skips` returns a downward-closed prefix of indices: an
index is skipped iff it is in range and every index up to and including it
satisfies the skip condition (a success entry under the stable key with
verifying outputs) — equivalently, every smaller index is skipped and the
index's own condition holds.  On the three-command fixture where the second
command's declared output was deleted, exactly index 0 is skipped, so the
second and third commands both rerun. -/
theorem c4_compute_skips_contiguous :
    (∀ (entries : List (String × StateEntry)) (fs : FS) (base : String)
        (cmds : List PlannedCommand) (i : Nat),
        i ∈ computeSkips entries fs base cmds ↔
          (i < cmds.length ∧
            ∀ j, j ≤ i → skipCond entries fs base (cmds.getD j defaultCmd) = true)) ∧
    computeSkips exEntriesC4 exFsC4 "/b" exCmdsC4 = [0] := by
  constructor
  · intro entries fs base cmds i
    rw [computeSkips, computeSkipsGo_eq_range, List.mem_range'_1]
    simp only [Nat.zero_le, true_and, Nat.zero_add]
    exact condPrefixLen_lt entries fs base cmds i
  · decide

/-- C5.  Jobstore reconciliation, for a command that declares a jobstore
whose resolved path already exists on disk: with a running/failed prior
entry and this command as the first rerun target, the jobstore is kept and
a restart flag is appended when the rootJobStoreID marker is present, and
the jobstore is deleted for a fresh run when the marker is absent; with a
running/failed entry that is not the first rerun target, or with a success
entry or no entry, the jobstore is deleted and the command runs fresh.  The
`allowRestart` argument embeds the runner's "is first rerun target" test
(`command_index == resume_start_index`, runner.py line 145). -/
theorem c5_jobstore_reconciliation
    (fs : FS) (base : String) (c : PlannedCommand) (st : Step) (js : String)
    (entryStatus : Option String) (allowRestart : Bool)
    (hstep : c.step = some st) (hjs : st.jobstore = some js) (hne : js ≠ "")
    (hex : fs.pathExists (resolveJobstorePath base js) = true) :
    ((entryStatus = some "running" ∨ entryStatus = some "failed") →
      allowRestart = true →
      fs.pathExists (resolveJobstorePath base js ++ "/files/shared/rootJobStoreID") = true →
      (prepareToilJobstore fs base c entryStatus allowRestart).1 = .restarted ∧
        (prepareToilJobstore fs base c entryStatus allowRestart).2.contains "--restart" = true) ∧
    ((entryStatus = some "running" ∨ entryStatus = some "failed") →
      allowRestart = true →
      fs.pathExists (resolveJobstorePath base js ++ "/files/shared/rootJobStoreID") = false →
      prepareToilJobstore fs base c entryStatus allowRestart = (.cleaned, c.command)) ∧
    ((entryStatus = some "running" ∨ entryStatus = some "failed") →
      allowRestart = false →
      prepareToilJobstore fs base c entryStatus allowRestart = (.cleaned, c.command)) ∧
    (¬(entryStatus = some "running" ∨ entryStatus = some "failed") →
      prepareToilJobstore fs base c entryStatus allowRestart = (.cleaned, c.command)) := by
  have hrf : (entryStatus == some "running" || entryStatus == some "failed") = true
      ↔ (entryStatus = some "running" ∨ entryStatus = some "failed") := by
    simp
  refine ⟨?_, ?_, ?_, ?_⟩
  · intro hs har hm
    subst har
    by_cases hmem : "--restart" ∈ c.command
    · simp [prepareToilJobstore, hstep, hjs, hne, hex, hrf.mpr hs, hm, hmem]
    · simp [prepareToilJobstore, hstep, hjs, hne, hex, hrf.mpr hs, hm, hmem]
  · intro hs har hm
    subst har
    simp [prepareToilJobstore, hstep, hjs, hne, hex, hrf.mpr hs, hm]
  · intro hs har
    subst har
    simp [prepareToilJobstore, hstep, hjs, hne, hex, hrf.mpr hs]
  · intro hs
    have hb : (entryStatus == some "running" || entryStatus == some "failed") = false := by
      rcases Bool.eq_false_or_eq_true
        (entryStatus == some "running" || entryStatus == some "failed") with hb | hb
      · exact absurd (hrf.mp hb) hs
      · exact hb
    simp [prepareToilJobstore, hstep, hjs, hne, hex, hb]

/-- Step of the jobstore witness fixture: a blast step declaring
`jobstore/0`. -/
def exStepC5 : Step :=
  { raw := "cactus-blast jobstore/0 seq.txt out.paf", kind := "blast"
    jobstore := some "jobstore/0", out_files := ["out.paf"] }

/-- The corresponding planned command. -/
def exCmdC5 : PlannedCommand := fromStep exStepC5 "blast" "/b" none

/-- Disk state: the jobstore directory exists and carries the
rootJobStoreID marker. -/
def exFsC5 : FS :=
  { entries := [("/b/jobstore/0", .dir),
                ("/b/jobstore/0/files/shared/rootJobStoreID", .text ["ok"])] }

/-- Witness for C5: a failed first rerun target with the marker present gets
the restart flag appended and the jobstore kept. -/
theorem c5_jobstore_reconciliation_witness :
    (prepareToilJobstore exFsC5 "/b" exCmdC5 (some "failed") true).1 = .restarted ∧
    (prepareToilJobstore exFsC5 "/b" exCmdC5 (some "failed") true).2.contains "--restart" = true :=
  (c5_jobstore_reconciliation exFsC5 "/b" exCmdC5 exStepC5 "jobstore/0"
      (some "failed") true rfl rfl (by decide) (by decide)).1
    (Or.inr rfl) rfl (by decide)

/-- C7.  The claim states that a thread-count override injects a
max-cores-style flag into every cactus-family command and a threads-style
flag into every ramax command.  The source `build_execution_plan` has no
thread-count input at all (its signature is `(plan, base_dir)`), so no such
flag is ever injected: on a plain cactus plan every emitted command is the
step's tokens verbatim, with neither `--maxCores` nor `--threads` anywhere.
The repository's own callers (runner.py lines 64-68, resume.py lines 94 and
147) pass `thread_count=` to it, which raises `TypeError` at call time. -/
theorem c7_thread_flag_injection_missing :
    (buildExecutionPlan exPlanC7 "/b").map
        (fun cs => cs.map (fun c =>
          c.command.contains "--maxCores" || c.command.contains "--threads"))
      = .ok [false, false, false] ∧
    (buildExecutionPlan exPlanC7 "/b").map (fun cs => cs.map (fun c => c.command))
      = .ok [["cactus-preprocess", "jobstore/0", "seq.txt"],
             ["cactus-blast", "jobstore/1", "seq.txt", "Anc1.paf", "--root", "Anc1"],
             ["cactus-align", "jobstore/2", "seq.txt", "Anc1.paf", "Anc1.hal", "--root", "Anc1"]] :=
  ⟨rfl, rfl⟩

/-- C8 counterexample.  The claim states the plan signature hashes each
command's canonical preview (thread-style flags stripped).  The source
hashes the full `shell_preview()`: two commands agreeing on canonical
preview and workdir but differing in a `--maxCores` flag produce different
signatures, so the signature is not a function of the canonical data the
claim names. -/
theorem c8_signature_not_canonical :
    commandCanonicalPreview exCmdC8a = commandCanonicalPreview exCmdC8b ∧
    exCmdC8a.workdir = exCmdC8b.workdir ∧
    planSignature [exCmdC8a] "/b" (some 4) ≠ planSignature [exCmdC8b] "/b" (some 4) := by
  refine ⟨rfl, rfl, ?_⟩
  decide

/-- C8 as amended: the plan signature is a hash over exactly the base
directory, the thread-count override, and each planned command's full shell
preview together with its workdir — it depends on nothing else about the
commands. -/
theorem c8_signature_amended (cmds1 cmds2 : List PlannedCommand) (base : String)
    (tc : Option Nat)
    (h : cmds1.map (fun c => (c.shellPreview, c.workdir))
        = cmds2.map (fun c => (c.shellPreview, c.workdir))) :
    planSignature cmds1 base tc = planSignature cmds2 base tc := by
  unfold planSignature
  have hmap : cmds1.map (fun c => c.shellPreview ++ (c.workdir.getD ""))
      = cmds2.map (fun c => c.shellPreview ++ (c.workdir.getD "")) := by
    have h2 := congrArg
      (List.map (fun pr : String × Option String => pr.1 ++ (pr.2.getD ""))) h
    simpa [List.map_map, Function.comp] using h2
  rw [hmap]

/-- A command agreeing with `exCmdC8b` on preview and workdir but built from
a different step and category. -/
def exCmdC8c : PlannedCommand :=
  { command := ["cactus-blast", "js", "seq.txt", "out.paf"]
    category := "other", display_name := "different-name"
    step := some { raw := "cactus-blast js seq.txt out.paf", kind := "blast" } }

/-- Witness for the amended C8: equal previews and workdirs give equal
signatures even when every other command field differs. -/
theorem c8_signature_amended_witness :
    planSignature [exCmdC8b] "/b" (some 4) = planSignature [exCmdC8c] "/b" (some 4) :=
  c8_signature_amended [exCmdC8b] [exCmdC8c] "/b" (some 4) (by decide)

/-- C9.  The claim states loading the run-state file never raises to the
caller: a missing path, an OS-level read failure and invalid JSON indeed
all degrade to the empty no-prior-state result — but a state file whose
bytes are not valid UTF-8 escapes.  The strict
`path.read_text(encoding="utf-8")` raises `UnicodeDecodeError`, which is a
`ValueError`, so the loader's `except (OSError, json.JSONDecodeError)`
clause does not catch it and the exception reaches the caller.  Every
other reader in resume.py opens with `errors="replace"`; the spec's
"silently treated as absent" is the clear intent and this loader's strict
decode the slip. -/
theorem c9_load_state_unicode_escape :
    loadRunStateFile { entries := [] } (fun _ => none) "/b/logs/run_state.json"
      = .ok emptyRunState ∧
    loadRunStateFile { entries := [("/b/logs/run_state.json", .unreadable)] }
        (fun _ => none) "/b/logs/run_state.json" = .ok emptyRunState ∧
    loadRunStateFile { entries := [("/b/logs/run_state.json", .text ["not json"])] }
        (fun _ => none) "/b/logs/run_state.json" = .ok emptyRunState ∧
    loadRunStateFile { entries := [("/b/logs/run_state.json", .binary ["�"])] }
        (fun _ => none) "/b/logs/run_state.json" = .error .unicodeDecodeError :=
  ⟨rfl, rfl, rfl, rfl⟩

/-- C10.  The fixture Newick text parses to a root named Root with exactly
the two named children N1 and N2, each with two leaf children; after binding
the rounds of the fixture plan (keyed N1, N2, Root), both inner nodes carry
their rounds, all four leaves carry none, and a pre-order `iter_rounds`
returns exactly the three bound rounds. -/
theorem c10_newick_fixture :
    parseNewick exNewick = .ok exTreeC10 ∧
    (attachRounds (roundMapOf exPlanC10) exTreeC10).name = "Root" ∧
    ((attachRounds (roundMapOf exPlanC10) exTreeC10).children.toList.map
        AlignmentNode.name) = ["N1", "N2"] ∧
    ((attachRounds (roundMapOf exPlanC10) exTreeC10).children.toList.map
        (fun c => (c.round,
          c.children.toList.map (fun l => (l.name, l.round, l.children.toList.length)))))
      = [(some (exTreeRound "N1"), [("A", none, 0), ("B", none, 0)]),
         (some (exTreeRound "N2"), [("C", none, 0), ("D", none, 0)])] ∧
    (attachRounds (roundMapOf exPlanC10) exTreeC10).iterRounds
      = [exTreeRound "Root", exTreeRound "N1", exTreeRound "N2"] :=
  ⟨rfl, rfl, rfl, rfl, rfl⟩

/-! ## FASTA scan characterisation (supporting C6) -/

/-- The headers a FASTA scan can see: the first word after each leading
angle bracket. -/
def fastaHeadersOf : List String → List String
  | [] => []
  | l :: ls =>
    if strStartsWith l ">" then fastaHeaderOf l :: fastaHeadersOf ls
    else fastaHeadersOf ls

theorem fastaScan_iff (lines : List String) :
    ∀ remaining : List String, remaining ≠ [] → remaining.Nodup →
      (fastaScan remaining lines = true ↔
        ∀ ct ∈ remaining, ct ∈ fastaHeadersOf lines) := by
  induction lines with
  | nil =>
    intro remaining hne _
    constructor
    · intro h; exact absurd h (by simp [fastaScan])
    · intro h
      exfalso
      obtain ⟨x, hx⟩ := List.exists_mem_of_ne_nil remaining hne
      simpa [fastaHeadersOf] using h x hx
  | cons line rest ih =>
    intro remaining hne hnd
    by_cases hhdr : strStartsWith line ">" = true
    · by_cases hin : fastaHeaderOf line ∈ remaining
      · by_cases hr2 : remaining.erase (fastaHeaderOf line) = []
        · have hrem : remaining = [fastaHeaderOf line] := by
            have hlen := remaining.length_erase_of_mem hin
            rw [hr2] at hlen
            have hlen2 : remaining.length - 1 = 0 := by
              simpa using hlen.symm
            have hpos : 0 < remaining.length := List.length_pos.mpr hne
            obtain ⟨a, ha⟩ := List.length_eq_one.mp (show remaining.length = 1 by omega)
            have : a = fastaHeaderOf line := by
              have h3 := hin
              rw [ha] at h3
              exact (List.mem_singleton.mp h3).symm
            rw [ha, this]
          subst hrem
          simp [fastaScan, fastaHeadersOf, hhdr, hin, hr2]
        · have hscan : fastaScan remaining (line :: rest)
              = fastaScan (remaining.erase (fastaHeaderOf line)) rest := by
            rw [fastaScan, if_neg (by simp [hhdr]),
              if_pos (List.elem_iff.mpr hin),
              if_neg (by simpa [List.isEmpty_iff] using hr2)]
          rw [hscan, fastaHeadersOf, if_pos hhdr]
          rw [ih _ hr2 (hnd.erase _)]
          constructor
          · intro h ct hct
            by_cases hcte : ct = fastaHeaderOf line
            · simp [hcte]
            · have : ct ∈ remaining.erase (fastaHeaderOf line) :=
                (hnd.mem_erase_iff).mpr ⟨hcte, hct⟩
              simpa using Or.inr (h ct this)
          · intro h ct hct
            have hmem := (hnd.mem_erase_iff).mp hct
            rcases List.mem_cons.mp (h ct hmem.2) with heq | hrest
            · exact absurd heq hmem.1
            · exact hrest
      · have hscan : fastaScan remaining (line :: rest) = fastaScan remaining rest := by
          rw [fastaScan, if_neg (by simp [hhdr]),
            if_neg (fun hc => hin (List.elem_iff.mp hc))]
        rw [hscan, fastaHeadersOf, if_pos hhdr, ih _ hne hnd]
        constructor
        · intro h ct hct
          exact List.mem_cons_of_mem _ (h ct hct)
        · intro h ct hct
          rcases List.mem_cons.mp (h ct hct) with heq | hrest
          · exact absurd (heq ▸ hct) hin
          · exact hrest
    · have hscan : fastaScan remaining (line :: rest) = fastaScan remaining rest := by
        simp [fastaScan, hhdr]
      rw [hscan, fastaHeadersOf, if_neg hhdr]
      exact ih _ hne hnd

theorem addContig_inv (needed : List (String × List String)) (ev ct : String)
    (h : ∀ ec ∈ needed, ec.2 ≠ [] ∧ ec.2.Nodup) :
    ∀ ec ∈ addContig needed ev ct, ec.2 ≠ [] ∧ ec.2.Nodup := by
  intro ec hec
  unfold addContig at hec
  by_cases hl : (needed.lookup ev).isSome
  · rw [if_pos hl] at hec
    obtain ⟨kv, hkv, heq⟩ := List.mem_map.mp hec
    by_cases hk : kv.1 == ev
    · rw [if_pos hk] at heq
      by_cases hcont : kv.2.contains ct = true
      · rw [if_pos hcont] at heq
        subst heq
        exact h kv hkv
      · rw [if_neg hcont] at heq
        subst heq
        refine ⟨by simp, ?_⟩
        rw [List.nodup_append]
        refine ⟨(h kv hkv).2, List.nodup_singleton ct, ?_⟩
        intro x hx hx2
        rw [List.mem_singleton.mp hx2] at hx
        exact hcont (List.elem_iff.mpr hx)
    · rw [if_neg hk] at heq
      subst heq
      exact h kv hkv
  · rw [if_neg hl] at hec
    rcases List.mem_append.mp hec with hmem | hmem
    · exact h ec hmem
    · rw [List.mem_singleton.mp hmem]
      exact ⟨by simp, List.nodup_singleton ct⟩

theorem addPafName_inv (needed : List (String × List String)) (name : String)
    (h : ∀ ec ∈ needed, ec.2 ≠ [] ∧ ec.2.Nodup) :
    ∀ ec ∈ addPafName needed name, ec.2 ≠ [] ∧ ec.2.Nodup := by
  unfold addPafName
  cases parsePafName name with
  | none => exact h
  | some evct => exact addContig_inv needed evct.1 evct.2 h

theorem collectPafLines_inv (limit : Nat) :
    ∀ (lines : List String) (seen : Nat) (acc : List (String × List String)),
      (∀ ec ∈ acc, ec.2 ≠ [] ∧ ec.2.Nodup) →
      ∀ ec ∈ collectPafLines limit lines seen acc, ec.2 ≠ [] ∧ ec.2.Nodup := by
  intro lines
  induction lines with
  | nil =>
    intro seen acc hacc
    simpa [collectPafLines] using hacc
  | cons line rest ih =>
    intro seen acc hacc
    rw [collectPafLines]
    split
    · exact ih seen acc hacc
    · split
      · exact ih seen acc hacc
      · split
        · exact addPafName_inv _ _ (addPafName_inv _ _ hacc)
        · exact ih (seen + 1) _ (addPafName_inv _ _ (addPafName_inv _ _ hacc))

theorem collectNeeded_inv (fs : FS) (paf : String) (limit : Nat) :
    ∀ ec ∈ collectNeededContigsFromPaf fs paf limit, ec.2 ≠ [] ∧ ec.2.Nodup := by
  unfold collectNeededContigsFromPaf
  cases fs.read paf with
  | none => simp
  | some lines => exact collectPafLines_inv limit lines 0 [] (by simp)

theorem fastaContains_spec (fs : FS) (path : String) (cs : List String)
    (hne : cs ≠ []) (hnd : cs.Nodup)
    (h : fastaContainsAllContigs fs path cs = true) :
    ∃ lines, fs.read path = some lines ∧ ∀ ct ∈ cs, ct ∈ fastaHeadersOf lines := by
  unfold fastaContainsAllContigs at h
  rw [if_neg (by simpa [List.isEmpty_iff] using hne)] at h
  cases hr : fs.read path with
  | none => rw [hr] at h; exact absurd h (by simp)
  | some lines =>
    rw [hr] at h
    exact ⟨lines, rfl, (fastaScan_iff lines cs hne hnd).mp h⟩

/-- C6 counterexample.  A blast-category step whose executable token is the
plain `blast` (as the repository's own fixtures spell it) bypasses the
contig cross-check entirely: the sampled PAF names two contigs of event
`evA`, the seqfile maps `evA` to a FASTA that contains neither, and yet
`outputs_exist` returns true, where the claim requires false. -/
theorem c6_blast_check_bypassed :
    outputsExist exFsC6 "/b" exCmdC6 = true ∧
    exCmdC6.step.map Step.kind = some "blast" ∧
    collectNeededContigsFromPaf exFsC6 "/b/out.paf" 200 = [("evA", ["c1", "c2"])] ∧
    (parseSeqfileMapping exFsC6 "/b/seqfile.txt" "/b").lookup "evA" = some "/b/evA.fa" ∧
    fastaContainsAllContigs exFsC6 "/b/evA.fa" ["c1", "c2"] = false :=
  ⟨rfl, rfl, rfl, rfl, by decide⟩

/-- C6 as amended.  When `outputs_exist` returns true, every declared output
of the source step exists; and for a blast step it additionally holds that —
provided the command's executable basename is `cactus-blast`, its seqfile
argument exists and parses to a non-empty event-to-FASTA mapping — every
`event|contig` pair sampled from the produced `.paf` outputs resolves to a
mapped FASTA whose headers include the contig.  (The claim as frozen omits
the executable-name and seqfile guards the source applies before the
cross-check.) -/
theorem c6_outputs_exist_amended
    (fs : FS) (base : String) (c : PlannedCommand) (st : Step)
    (hstep : c.step = some st)
    (hok : outputsExist fs base c = true) :
    (∀ f ∈ st.out_files, fs.pathExists (resolvePath base f) = true) ∧
    (st.kind = "blast" →
      lcStr (baseName (c.command.headD "")) = "cactus-blast" →
      ∀ sf, seqfileFromCactusBlast base c = some sf →
        fs.pathExists sf = true →
        parseSeqfileMapping fs sf base ≠ [] →
        ∀ paf ∈ (st.out_files.map (resolvePath base)).filter
            (fun p => strEndsWith p ".paf"),
          ∀ ec ∈ collectNeededContigsFromPaf fs paf 200,
            ∃ fp, (parseSeqfileMapping fs sf base).lookup ec.1 = some fp ∧
              ∃ lines, fs.read fp = some lines ∧
                ∀ ct ∈ ec.2, ct ∈ fastaHeadersOf lines) := by
  unfold outputsExist at hok
  rw [hstep] at hok
  dsimp only at hok
  by_cases hempty : st.out_files.isEmpty = true
  · have hnil : st.out_files = [] := List.isEmpty_iff.mp hempty
    constructor
    · intro f hf; rw [hnil] at hf; exact absurd hf (List.not_mem_nil f)
    · intro _ _ sf _ _ _ paf hpaf
      rw [hnil] at hpaf
      exact absurd hpaf (by simp)
  · rw [if_neg hempty] at hok
    cases hall : (st.out_files.map (resolvePath base)).all fs.pathExists with
    | false =>
      rw [hall] at hok
      exact absurd hok (by simp)
    | true =>
      rw [hall] at hok
      simp only [Bool.not_true, Bool.false_eq_true, if_false] at hok
      constructor
      · intro f hf
        exact List.all_eq_true.mp hall _ (List.mem_map_of_mem _ hf)
      · intro hkind hname sf hsf hsfex hmapne paf hpaf ec hec
        rw [if_pos (by simp [hkind])] at hok
        have hpafs_ne :
            ((st.out_files.map (resolvePath base)).filter
              (fun p => strEndsWith p ".paf")).isEmpty = false := by
          rcases hie : ((st.out_files.map (resolvePath base)).filter
              (fun p => strEndsWith p ".paf")).isEmpty with _ | _
          · rfl
          · rw [List.isEmpty_iff.mp hie] at hpaf
            exact absurd hpaf (by simp)
        have hmatch : blastPafMatchesSeqfile fs base c
            ((st.out_files.map (resolvePath base)).filter
              (fun p => strEndsWith p ".paf")) = true := by
          cases hbm : blastPafMatchesSeqfile fs base c
              ((st.out_files.map (resolvePath base)).filter
                (fun p => strEndsWith p ".paf")) with
          | true => rfl
          | false =>
            rw [hbm, hpafs_ne] at hok
            exact absurd hok (by simp)
        unfold blastPafMatchesSeqfile at hmatch
        rw [if_neg (by rw [hname]; decide), hsf] at hmatch
        dsimp only at hmatch
        rw [if_neg (by simp [hsfex])] at hmatch
        rw [if_neg (by simpa [List.isEmpty_iff] using hmapne)] at hmatch
        have hpafall := List.all_eq_true.mp hmatch paf hpaf
        have hecall : (match List.lookup ec.1 (parseSeqfileMapping fs sf base) with
            | none => false
            | some fastaPath => fastaContainsAllContigs fs fastaPath ec.2) = true :=
          List.all_eq_true.mp hpafall ec hec
        cases hlk : List.lookup ec.1 (parseSeqfileMapping fs sf base) with
        | none => rw [hlk] at hecall; exact absurd hecall (by simp)
        | some fp =>
          rw [hlk] at hecall
          have hinv := collectNeeded_inv fs paf 200 ec hec
          obtain ⟨lines, hread, hmem⟩ :=
            fastaContains_spec fs fp ec.2 hinv.1 hinv.2 (by simpa using hecall)
          exact ⟨fp, rfl, lines, hread, hmem⟩

/-- Witness for the amended C6 at the passing cactus-blast fixture. -/
theorem c6_outputs_exist_amended_witness :
    exFsC6ok.pathExists (resolvePath "/b" "out.paf") = true :=
  (c6_outputs_exist_amended exFsC6ok "/b" exCmdC6b exStepC6b rfl (by decide)).1
    "out.paf" (by decide)

/-- Witness for C4: index 0 is skipped on the fixture, obtained through the
general characterisation. -/
theorem c4_compute_skips_contiguous_witness :
    0 ∈ computeSkips exEntriesC4 exFsC4 "/b" exCmdsC4 :=
  (c4_compute_skips_contiguous.1 exEntriesC4 exFsC4 "/b" exCmdsC4 0).mpr
    ⟨by decide, fun j hj => by
      have hj0 : j = 0 := Nat.le_zero.mp hj
      subst hj0
      decide⟩

end Cax
